import Mathlib

/-!
# SpaceShooter: the ship pawn (`Source/SpaceShooter/SpaceShooterPawn.cpp`)

A shallow embedding of `ASpaceShooterPawn`: the ability toggles, the movement step of `Tick`,
`FireShot` and `ShotTimerExpired`.

Conventions.

* `float` values are taken in an ordered field `α` with exact arithmetic (`ℚ` for the concrete
  computations, `ℝ` where a square root is needed); rounding is not modelled.
* Calls into the engine that only *request* something (move, spawn, timer, sound) are recorded
  as a list of `EngineCall`s in program order.
* What the engine gives back is an input of the embedded function: the pointer returned by
  `GetWorld()`, the value of `GetActorLocation()`, the `FHitResult` filled in by the first
  `MoveComponent`.
* Engine helpers that need trigonometry or a square root are fields of `Engine`.
-/

namespace SpaceShooter

/-! ## Engine value types -/

/-- The engine's 3D vector `FVector`. -/
structure FVector (α : Type) where
  X : α
  Y : α
  Z : α
deriving DecidableEq, Repr

/-- The engine's `FTimerHandle`; `0` is the invalid (default constructed) handle. -/
abbrev FTimerHandle := Nat

/-- A loaded `USoundBase` asset, by identity. -/
abbrev USoundBase := Nat

/-- The part of `FHitResult` that `Tick` reads. -/
structure FHitResult (α : Type) where
  bBlockingHit : Bool
  bStartPenetrating : Bool
  Normal : FVector α
  Time : α
deriving DecidableEq, Repr

/-- The object behind a non-null `GetWorld()`. The pawn reads nothing from it; its timer manager
writes `NextTimerHandle` into the handle passed to `SetTimer`. -/
structure UWorld where
  NextTimerHandle : FTimerHandle
deriving DecidableEq, Repr

/-- The member functions a timer can be bound to. -/
inductive TimerCallback where
  | ShotTimerExpired
deriving DecidableEq, Repr

/-- A request made to the engine. -/
inductive EngineCall (α R : Type) where
  | MoveComponent (Delta : FVector α) (NewRotation : R) (bSweep : Bool)
  | SpawnActor (Location : FVector α) (Rotation : R)
  | SetTimer (Callback : TimerCallback) (Rate : α)
  | PlaySoundAtLocation (Sound : USoundBase) (Location : FVector α)
deriving DecidableEq, Repr

/-- Engine helpers left abstract: `FMath::InvSqrt`, `FVector::Rotation` and
`FRotator::RotateVector`. `R` is the type of rotators. -/
structure Engine (α R : Type) where
  InvSqrt : α → α
  Rotation : FVector α → R
  RotateVector : R → FVector α → FVector α

namespace FVector

variable {α : Type} [LinearOrderedField α]

/-- Engine constant `FVector::ZeroVector`. -/
def ZeroVector : FVector α := ⟨0, 0, 0⟩

/-- Engine `operator+` on vectors. -/
def add (a b : FVector α) : FVector α := ⟨a.X + b.X, a.Y + b.Y, a.Z + b.Z⟩

/-- Engine `operator-` on vectors. -/
def sub (a b : FVector α) : FVector α := ⟨a.X - b.X, a.Y - b.Y, a.Z - b.Z⟩

/-- Engine `operator*(float)`: a vector times a scalar. -/
def scale (v : FVector α) (s : α) : FVector α := ⟨v.X * s, v.Y * s, v.Z * s⟩

/-- Engine `operator|`, the dot product. -/
def dot (a b : FVector α) : α := a.X * b.X + a.Y * b.Y + a.Z * b.Z

/-- Engine `FVector::SizeSquared`, the squared length. -/
def SizeSquared (v : FVector α) : α := v.X * v.X + v.Y * v.Y + v.Z * v.Z

/-- The engine constant `KINDA_SMALL_NUMBER` (1e-4). -/
def KINDA_SMALL_NUMBER : α := 1 / 10000

/-- The engine constant `SMALL_NUMBER` (1e-8). -/
def SMALL_NUMBER : α := 1 / 100000000

/-- Modelled from the spec: `FVector::GetClampedToMaxSize` is an engine helper, not part of the
sources. "Clamp its magnitude to 1": a vector longer than `MaxSize` is rescaled to length
`MaxSize`, any other vector is returned unchanged; the engine returns the zero vector for a
`MaxSize` below `KINDA_SMALL_NUMBER`. -/
def GetClampedToMaxSize (InvSqrt : α → α) (v : FVector α) (MaxSize : α) : FVector α :=
  if MaxSize < KINDA_SMALL_NUMBER then ZeroVector
  else
    let VSq := v.SizeSquared
    if VSq > MaxSize * MaxSize then
      let Scale := MaxSize * InvSqrt VSq
      ⟨v.X * Scale, v.Y * Scale, v.Z * Scale⟩
    else v

/-- Modelled from the spec: `FVector::GetSafeNormal2D` is an engine helper, not part of the
sources, and the spec does not describe it. Engine contract: the unit vector of the X/Y part,
with Z dropped; the zero vector when the X/Y part is shorter than the tolerance. -/
def GetSafeNormal2D (InvSqrt : α → α) (v : FVector α) : FVector α :=
  let SquareSum := v.X * v.X + v.Y * v.Y
  if SquareSum = 1 then
    if v.Z = 0 then v else ⟨v.X, v.Y, 0⟩
  else if SquareSum < SMALL_NUMBER then ZeroVector
  else
    let Scale := InvSqrt SquareSum
    ⟨v.X * Scale, v.Y * Scale, 0⟩

/-- Engine `FVector::ProjectOnToNormal`: the component of `v` along a unit `Normal`. -/
def ProjectOnToNormal (v Normal : FVector α) : FVector α := Normal.scale (v.dot Normal)

/-- Modelled from the spec: `FVector::VectorPlaneProject` is an engine helper, not part of the
sources. "Project the displacement onto the plane of the normal": `V` minus its component
along `PlaneNormal`. -/
def VectorPlaneProject (V PlaneNormal : FVector α) : FVector α :=
  V.sub (V.ProjectOnToNormal PlaneNormal)

end FVector

/-- Engine `FHitResult::IsValidBlockingHit`: a blocking hit that did not start in
penetration. -/
def FHitResult.IsValidBlockingHit {α : Type} (h : FHitResult α) : Bool :=
  h.bBlockingHit && !h.bStartPenetrating

/-! ## The pawn -/

/-- The gameplay state of `ASpaceShooterPawn` (`SpaceShooterPawn.h`). The visual components and
`JumpHeight`, which no member function reads or writes, are left out. -/
structure ASpaceShooterPawn (α : Type) where
  GunOffset : FVector α
  FireRate : α
  MoveSpeed : α
  SpeedBoost : α
  FireSound : Option USoundBase
  JumpActivated : Bool
  bCanFire : Bool
  TimerHandle_ShotTimerExpired : FTimerHandle
deriving DecidableEq, Repr

variable {α R : Type} [LinearOrderedField α]

/-- The constructor `ASpaceShooterPawn::ASpaceShooterPawn`; `FireAudio` is what the asset
lookup for the fire sound returned. -/
def ASpaceShooterPawn.ctor (FireAudio : Option USoundBase) : ASpaceShooterPawn α :=
  let MoveSpeed : α := 1000
  { MoveSpeed := MoveSpeed
    GunOffset := ⟨90, 0, 0⟩
    FireRate := 1 / 10
    bCanFire := true
    SpeedBoost := MoveSpeed + 1500
    JumpActivated := false
    FireSound := FireAudio
    TimerHandle_ShotTimerExpired := 0 }

/-- Function `SpeedBoostAbility` (lines 82-85): `MoveSpeed = SpeedBoost;`. -/
def SpeedBoostAbility (p : ASpaceShooterPawn α) : ASpaceShooterPawn α :=
  { p with MoveSpeed := p.SpeedBoost }

/-- Function `SpeedBoostAbilityStop` (lines 88-91): `MoveSpeed = MoveSpeed - 1500.0f;`. -/
def SpeedBoostAbilityStop (p : ASpaceShooterPawn α) : ASpaceShooterPawn α :=
  { p with MoveSpeed := p.MoveSpeed - 1500 }

/-- Function `JumpAbility` (lines 94-97): `JumpActivated = true;`. -/
def JumpAbility (p : ASpaceShooterPawn α) : ASpaceShooterPawn α :=
  { p with JumpActivated := true }

/-- Function `JumpAbilityStop` (lines 100-103): `JumpActivated = false;`. -/
def JumpAbilityStop (p : ASpaceShooterPawn α) : ASpaceShooterPawn α :=
  { p with JumpActivated := false }

/-- Function `ShotTimerExpired` (lines 183-186): `bCanFire = true;`. -/
def ShotTimerExpired (p : ASpaceShooterPawn α) : ASpaceShooterPawn α :=
  { p with bCanFire := true }

/-- The vector `MoveDirection` that `Tick` multiplies into `Movement` (lines 108-118). The
`MoveDirection` declared inside `if (JumpActivated) { ... }` is a new variable of that block: it
goes out of scope at the closing brace, and the statements after the block see the outer one. -/
def TickMoveDirection (E : Engine α R) (p : ASpaceShooterPawn α)
    (ForwardValue RightValue : α) : FVector α :=
  let MoveDirection :=
    (FVector.mk ForwardValue RightValue 0).GetClampedToMaxSize E.InvSqrt 1
  let _block : Unit :=
    if p.JumpActivated then
      let _MoveDirection :=
        (FVector.mk ForwardValue RightValue 1000).GetClampedToMaxSize E.InvSqrt 1
      ()
    else ()
  MoveDirection

/-- The vector `Movement` of `Tick` (line 121): `MoveDirection * MoveSpeed * DeltaSeconds`. -/
def TickMovementVector (E : Engine α R) (p : ASpaceShooterPawn α)
    (ForwardValue RightValue DeltaSeconds : α) : FVector α :=
  ((TickMoveDirection E p ForwardValue RightValue).scale p.MoveSpeed).scale DeltaSeconds

/-- The vector `Deflection` of `Tick` (lines 133-134), the displacement of the second move:
`VectorPlaneProject(Movement, Hit.Normal.GetSafeNormal2D()) * (1.f - Hit.Time)`. -/
def TickDeflection (E : Engine α R) (Movement : FVector α) (Hit : FHitResult α) : FVector α :=
  let Normal2D := Hit.Normal.GetSafeNormal2D E.InvSqrt
  (FVector.VectorPlaneProject Movement Normal2D).scale (1 - Hit.Time)

/-- The movement step of `Tick` (lines 108-139). `Hit` is what the first `MoveComponent` wrote
into its `FHitResult`. Returns the pawn and the move requests, in order. -/
def TickMovement (E : Engine α R) (p : ASpaceShooterPawn α)
    (ForwardValue RightValue DeltaSeconds : α) (Hit : FHitResult α) :
    ASpaceShooterPawn α × List (EngineCall α R) :=
  let Movement := TickMovementVector E p ForwardValue RightValue DeltaSeconds
  if Movement.SizeSquared > 0 then
    let NewRotation := E.Rotation Movement
    let first := EngineCall.MoveComponent Movement NewRotation true
    if Hit.IsValidBlockingHit then
      let Deflection := TickDeflection E Movement Hit
      (p, [first, EngineCall.MoveComponent Deflection NewRotation true])
    else (p, [first])
  else (p, [])

/-- Function `FireShot` (lines 150-181). `World` is the result of `GetWorld()`,
`ActorLocation` the result of `GetActorLocation()`. The result is `none` when the call
dereferences a null pointer: line 170 calls `World->GetTimerManager()` outside the
`World != NULL` guard. -/
def FireShot (E : Engine α R) (p : ASpaceShooterPawn α) (World : Option UWorld)
    (ActorLocation FireDirection : FVector α) :
    Option (ASpaceShooterPawn α × List (EngineCall α R)) :=
  if p.bCanFire = true then
    if FireDirection.SizeSquared > 0 then
      let FireRotation := E.Rotation FireDirection
      let SpawnLocation := ActorLocation.add (E.RotateVector FireRotation p.GunOffset)
      let spawn : List (EngineCall α R) :=
        match World with
        | some _ => [EngineCall.SpawnActor SpawnLocation FireRotation]
        | none => []
      let p1 := { p with bCanFire := false }
      match World with
      | none => none
      | some W =>
        let p2 := { p1 with TimerHandle_ShotTimerExpired := W.NextTimerHandle }
        let timer : List (EngineCall α R) :=
          [EngineCall.SetTimer TimerCallback.ShotTimerExpired p.FireRate]
        let sound : List (EngineCall α R) :=
          match p.FireSound with
          | some s => [EngineCall.PlaySoundAtLocation s ActorLocation]
          | none => []
        let p3 := { p2 with bCanFire := false }
        some (p3, spawn ++ timer ++ sound)
    else some (p, [])
  else some (p, [])

/-- Function `Tick` (lines 106-148): the movement step, then `FireShot` with the fire-axis
vector. -/
def Tick (E : Engine α R) (p : ASpaceShooterPawn α) (World : Option UWorld)
    (ForwardValue RightValue FireForwardValue FireRightValue DeltaSeconds : α)
    (Hit : FHitResult α) (ActorLocation : FVector α) :
    Option (ASpaceShooterPawn α × List (EngineCall α R)) :=
  let moved := TickMovement E p ForwardValue RightValue DeltaSeconds Hit
  let FireDirection : FVector α := ⟨FireForwardValue, FireRightValue, 0⟩
  match FireShot E moved.1 World ActorLocation FireDirection with
  | none => none
  | some (p2, calls) => some (p2, moved.2 ++ calls)

/-! ## Observing the requests -/

/-- The projectile spawns among a list of requests, as (location, rotation) pairs. -/
def spawnsOf : List (EngineCall α R) → List (FVector α × R)
  | [] => []
  | EngineCall.SpawnActor l r :: cs => (l, r) :: spawnsOf cs
  | _ :: cs => spawnsOf cs

/-- The timers set among a list of requests, as (callback, delay) pairs. -/
def timersOf : List (EngineCall α R) → List (TimerCallback × α)
  | [] => []
  | EngineCall.SetTimer c t :: cs => (c, t) :: timersOf cs
  | _ :: cs => timersOf cs

/-- The sounds played among a list of requests. -/
def soundsOf : List (EngineCall α R) → List USoundBase
  | [] => []
  | EngineCall.PlaySoundAtLocation s _ :: cs => s :: soundsOf cs
  | _ :: cs => soundsOf cs

/-- The displacements of the moves among a list of requests. -/
def movesOf : List (EngineCall α R) → List (FVector α)
  | [] => []
  | EngineCall.MoveComponent d _ _ :: cs => d :: movesOf cs
  | _ :: cs => movesOf cs

/-! ## The cooldown timer -/

/-- Modelled from the spec: the engine's timer facility is not part of the sources. "Given a
delay and a callback, invokes the callback once after the delay elapses": a simulation state
holds the pawn, the clock, the expiry time of the pending one-shot callback (if any), and the
projectiles spawned so far. (The engine treats a `SetTimer` with a delay that is not positive
as a request to clear the timer; the spec's description does not, and neither does this
model.) -/
structure Sim (α R : Type) where
  Pawn : ASpaceShooterPawn α
  Now : α
  Pending : Option α
  Spawned : List (FVector α × R)

/-- The engine serving one request: a spawn is logged, `SetTimer` (re)arms the one-shot callback
`Rate` seconds from now. -/
def Sim.serve (s : Sim α R) : EngineCall α R → Sim α R
  | EngineCall.SpawnActor l r => { s with Spawned := s.Spawned ++ [(l, r)] }
  | EngineCall.SetTimer TimerCallback.ShotTimerExpired Rate =>
      { s with Pending := some (s.Now + Rate) }
  | _ => s

/-- A fire attempt at the current time, in a world that is present. -/
def Sim.fire (E : Engine α R) (World : UWorld) (ActorLocation FireDirection : FVector α)
    (s : Sim α R) : Sim α R :=
  match FireShot E s.Pawn (some World) ActorLocation FireDirection with
  | none => s
  | some (p, calls) => calls.foldl Sim.serve { s with Pawn := p }

/-- Time passes: the clock moves by `dt`, and a pending callback whose expiry time has been
reached runs `ShotTimerExpired` once and is cleared. -/
def Sim.advance (dt : α) (s : Sim α R) : Sim α R :=
  let Now := s.Now + dt
  match s.Pending with
  | some T =>
      if T ≤ Now then { s with Pawn := ShotTimerExpired s.Pawn, Now := Now, Pending := none }
      else { s with Now := Now }
  | none => { s with Now := Now }

/-- The start of a run: nothing pending, nothing spawned. -/
def Sim.start (p : ASpaceShooterPawn α) (t0 : α) : Sim α R :=
  { Pawn := p, Now := t0, Pending := none, Spawned := [] }

/-! ## Concrete engines and inputs -/

/-- An engine for concrete runs: a rotator is represented by the unit vector it points along
(yaw only), and `RotateVector` turns a vector about the Z axis accordingly. -/
def yawEngine (InvSqrt : α → α) : Engine α (FVector α) where
  InvSqrt := InvSqrt
  Rotation := fun d => d.scale (InvSqrt d.SizeSquared)
  RotateVector := fun u v => ⟨v.X * u.X - v.Y * u.Y, v.X * u.Y + v.Y * u.X, v.Z⟩

/-- An inverse square root on `ℚ`, exact on squares of rationals. -/
def qInvSqrt (x : ℚ) : ℚ := (Nat.sqrt x.den : ℚ) / (Nat.sqrt x.num.toNat : ℚ)

/-- The constructor-default pawn with `MoveSpeed` edited to 500 (the field is `EditAnywhere`);
`SpeedBoost` keeps the value 2500 the constructor computed. -/
def slowPawn : ASpaceShooterPawn ℚ :=
  { (ASpaceShooterPawn.ctor none : ASpaceShooterPawn ℚ) with MoveSpeed := 500 }

/-- The constructor-default pawn over `ℚ`, with no fire sound configured. -/
def defaultPawn : ASpaceShooterPawn ℚ := ASpaceShooterPawn.ctor none

/-- The engine used for the runs over `ℚ`. -/
def qEngine : Engine ℚ (FVector ℚ) := yawEngine qInvSqrt

/-- A world that is present. -/
def someWorld : UWorld := ⟨1⟩

/-- Where the pawn stands in the concrete runs. -/
def standPoint : FVector ℚ := ⟨10, 20, 0⟩

/-- The fire stick pushed fully to the right. -/
def fireRight : FVector ℚ := ⟨0, 1, 0⟩

/-- A blocking hit half way through the move, on a ramp facing the -X direction and tilted
upwards: the unit normal is (-3/5, 0, 4/5). -/
def rampHit : FHitResult α := ⟨true, false, ⟨-3 / 5, 0, 4 / 5⟩, 1 / 2⟩

/-- One press and release of the speed-boost key. -/
def pressRelease (p : ASpaceShooterPawn α) : ASpaceShooterPawn α :=
  SpeedBoostAbilityStop (SpeedBoostAbility p)

/-! ## Speed boost -/

/-- C4, as stated, fails: on the default pawn with `MoveSpeed` edited to 500, `SpeedBoostAbility`
gives 2500, not 500 + 1500, and the release that follows gives 1000, not 500. -/
theorem SpeedBoost_not_relative :
    (SpeedBoostAbility slowPawn).MoveSpeed ≠ slowPawn.MoveSpeed + 1500 ∧
    (SpeedBoostAbilityStop (SpeedBoostAbility slowPawn)).MoveSpeed ≠ slowPawn.MoveSpeed := by
  simp [SpeedBoostAbility, SpeedBoostAbilityStop, slowPawn, ASpaceShooterPawn.ctor]

/-- C4, amended: `SpeedBoostAbility` sets `MoveSpeed` to the configured `SpeedBoost`; in every
state where `SpeedBoost = MoveSpeed + 1500` that is the pre-activation `MoveSpeed` plus 1500, and
`SpeedBoostAbility` followed by `SpeedBoostAbilityStop` leaves `MoveSpeed` as it was. -/
theorem SpeedBoost_press_release (p : ASpaceShooterPawn α) :
    (SpeedBoostAbility p).MoveSpeed = p.SpeedBoost ∧
    (p.SpeedBoost = p.MoveSpeed + 1500 →
      (SpeedBoostAbility p).MoveSpeed = p.MoveSpeed + 1500 ∧
      (SpeedBoostAbilityStop (SpeedBoostAbility p)).MoveSpeed = p.MoveSpeed) := by
  refine ⟨rfl, fun h => ⟨h, ?_⟩⟩
  show p.SpeedBoost - 1500 = p.MoveSpeed
  rw [h]
  ring

/-- C4, amended, at the constructor default: 1000 + 1500 = 2500 on press, 1000 after release. -/
theorem SpeedBoost_press_release_witness :
    (ASpaceShooterPawn.ctor none : ASpaceShooterPawn ℚ).SpeedBoost =
        (ASpaceShooterPawn.ctor none : ASpaceShooterPawn ℚ).MoveSpeed + 1500 ∧
    (SpeedBoostAbility (ASpaceShooterPawn.ctor none : ASpaceShooterPawn ℚ)).MoveSpeed =
        1000 + 1500 ∧
    (SpeedBoostAbilityStop
        (SpeedBoostAbility (ASpaceShooterPawn.ctor none : ASpaceShooterPawn ℚ))).MoveSpeed =
        1000 :=
  ⟨rfl,
   ((SpeedBoost_press_release (ASpaceShooterPawn.ctor none : ASpaceShooterPawn ℚ)).2 rfl).1,
   ((SpeedBoost_press_release (ASpaceShooterPawn.ctor none : ASpaceShooterPawn ℚ)).2 rfl).2⟩

/-- Press and release read and write `MoveSpeed` only. -/
theorem pressRelease_fields (p : ASpaceShooterPawn α) :
    (pressRelease p).SpeedBoost = p.SpeedBoost ∧
    (pressRelease p).MoveSpeed = p.SpeedBoost - 1500 :=
  ⟨rfl, rfl⟩

/-- Any number of press/release pairs keeps `SpeedBoost`. -/
theorem iterate_pressRelease_SpeedBoost (n : ℕ) (p : ASpaceShooterPawn α) :
    (pressRelease^[n] p).SpeedBoost = p.SpeedBoost := by
  induction n generalizing p with
  | zero => rfl
  | succ k ih => rw [Function.iterate_succ_apply, ih]; rfl

/-- C5: from the constructor-default pawn (`MoveSpeed` 1000, `SpeedBoost` 2500), after any
number `n` of completed press/release pairs `MoveSpeed` is 1000, the next press makes it 2500 and
the release after that makes it 1000 again. -/
theorem default_press_release_alternating (FireAudio : Option USoundBase) (n : ℕ) :
    (pressRelease^[n] (ASpaceShooterPawn.ctor FireAudio : ASpaceShooterPawn α)).MoveSpeed
        = 1000 ∧
    (SpeedBoostAbility
        (pressRelease^[n] (ASpaceShooterPawn.ctor FireAudio : ASpaceShooterPawn α))).MoveSpeed
        = 2500 ∧
    (SpeedBoostAbilityStop (SpeedBoostAbility
        (pressRelease^[n] (ASpaceShooterPawn.ctor FireAudio : ASpaceShooterPawn α)))).MoveSpeed
        = 1000 := by
  have hB : (pressRelease^[n]
      (ASpaceShooterPawn.ctor FireAudio : ASpaceShooterPawn α)).SpeedBoost = 2500 := by
    rw [iterate_pressRelease_SpeedBoost]
    show (1000 : α) + 1500 = 2500
    norm_num
  have hpress : (SpeedBoostAbility (pressRelease^[n]
      (ASpaceShooterPawn.ctor FireAudio : ASpaceShooterPawn α))).MoveSpeed = 2500 := hB
  have hrel : (SpeedBoostAbilityStop (SpeedBoostAbility (pressRelease^[n]
      (ASpaceShooterPawn.ctor FireAudio : ASpaceShooterPawn α)))).MoveSpeed = 1000 := by
    show (SpeedBoostAbility (pressRelease^[n]
      (ASpaceShooterPawn.ctor FireAudio : ASpaceShooterPawn α))).MoveSpeed - 1500 = 1000
    rw [hpress]
    norm_num
  refine ⟨?_, hpress, hrel⟩
  cases n with
  | zero => rfl
  | succ k =>
    rw [Function.iterate_succ_apply', (pressRelease_fields _).2, iterate_pressRelease_SpeedBoost]
    show (1000 : α) + 1500 - 1500 = 1000
    norm_num

/-! ## Firing -/

/-- What `FireShot` does when it is ok to fire, the stick is pushed and the world is present. -/
theorem FireShot_eq_of_ready (E : Engine α R) (p : ASpaceShooterPawn α) (W : UWorld)
    (loc d : FVector α) (hcan : p.bCanFire = true) (hd : d.SizeSquared > 0) :
    FireShot E p (some W) loc d =
      some ({ p with bCanFire := false, TimerHandle_ShotTimerExpired := W.NextTimerHandle },
        [EngineCall.SpawnActor (loc.add (E.RotateVector (E.Rotation d) p.GunOffset))
            (E.Rotation d),
         EngineCall.SetTimer TimerCallback.ShotTimerExpired p.FireRate] ++
        (match p.FireSound with
          | some s => [EngineCall.PlaySoundAtLocation s loc]
          | none => [])) := by
  simp [FireShot, hcan, hd]

/-- What `FireShot` does when it is not ok to fire: nothing. -/
theorem FireShot_eq_of_cooldown (E : Engine α R) (p : ASpaceShooterPawn α)
    (World : Option UWorld) (loc d : FVector α) (hcan : p.bCanFire = false) :
    FireShot E p World loc d = some (p, []) := by
  simp [FireShot, hcan]

/-- C1: with `bCanFire` true, the world present and a fire direction of non-zero squared
length, `FireShot` completes, requests exactly one spawn, at `GetActorLocation()` plus
`GunOffset` rotated by the heading of the fire direction and with that heading as rotation,
sets exactly one timer, for `ShotTimerExpired` with delay `FireRate`, and leaves `bCanFire`
false. -/
theorem FireShot_ready_spawns_once (E : Engine α R) (p : ASpaceShooterPawn α) (W : UWorld)
    (loc d : FVector α) (hcan : p.bCanFire = true) (hd : d.SizeSquared > 0) :
    ∃ p1 calls, FireShot E p (some W) loc d = some (p1, calls) ∧
      spawnsOf calls =
        [(loc.add (E.RotateVector (E.Rotation d) p.GunOffset), E.Rotation d)] ∧
      timersOf calls = [(TimerCallback.ShotTimerExpired, p.FireRate)] ∧
      p1.bCanFire = false := by
  refine ⟨_, _, FireShot_eq_of_ready E p W loc d hcan hd, ?_, ?_, rfl⟩
  · cases p.FireSound <;> rfl
  · cases p.FireSound <;> rfl

/-- C1 on the default pawn standing at (10, 20, 0) and firing to the right: the gun offset
(90, 0, 0) turned to the right is (0, 90, 0), so the one spawn is at (10, 110, 0), heading
right, and the one timer runs `ShotTimerExpired` after 1/10 s. -/
theorem FireShot_ready_spawns_once_witness :
    ∃ p1 calls, FireShot qEngine defaultPawn (some someWorld) standPoint fireRight
        = some (p1, calls) ∧
      spawnsOf calls = [(⟨10, 110, 0⟩, ⟨0, 1, 0⟩)] ∧
      timersOf calls = [(TimerCallback.ShotTimerExpired, 1 / 10)] ∧
      p1.bCanFire = false := by
  have h := FireShot_ready_spawns_once qEngine defaultPawn someWorld standPoint fireRight rfl
    (by simp [FVector.SizeSquared, fireRight])
  have hrot : qEngine.Rotation fireRight = ⟨0, 1, 0⟩ := by
    simp [qEngine, yawEngine, qInvSqrt, fireRight, FVector.scale, FVector.SizeSquared]
  have hloc : standPoint.add (qEngine.RotateVector (qEngine.Rotation fireRight)
      defaultPawn.GunOffset) = ⟨10, 110, 0⟩ := by
    rw [hrot]
    simp [qEngine, yawEngine, standPoint, defaultPawn, ASpaceShooterPawn.ctor, FVector.add]
    norm_num
  rw [hloc, hrot] at h
  exact h

/-- C2: with `bCanFire` false, for every fire direction and whether or not the world is
present, `FireShot` completes with the pawn state unchanged (every field) and with no request
to the engine at all: no spawn, no timer set, no sound. -/
theorem FireShot_cooldown_drops (E : Engine α R) (p : ASpaceShooterPawn α)
    (World : Option UWorld) (loc d : FVector α) (hcan : p.bCanFire = false) :
    FireShot E p World loc d = some (p, []) ∧
    ∀ p1 calls, FireShot E p World loc d = some (p1, calls) →
      p1 = p ∧ spawnsOf calls = [] ∧ timersOf calls = [] ∧ soundsOf calls = [] := by
  have h := FireShot_eq_of_cooldown E p World loc d hcan
  refine ⟨h, fun p1 calls h1 => ?_⟩
  rw [h] at h1
  cases h1
  exact ⟨rfl, rfl, rfl, rfl⟩

/-- C2 on the default pawn right after a shot (`bCanFire` false): a second attempt is dropped. -/
theorem FireShot_cooldown_drops_witness :
    FireShot qEngine { defaultPawn with bCanFire := false } (some someWorld) standPoint
        fireRight = some ({ defaultPawn with bCanFire := false }, []) :=
  (FireShot_cooldown_drops qEngine { defaultPawn with bCanFire := false } (some someWorld)
    standPoint fireRight rfl).1

/-- C8, what the code does: with `bCanFire` true and a fire direction of non-zero squared
length, when `GetWorld()` is null `FireShot` skips the spawn and then dereferences the null
pointer at `World->GetTimerManager()`: the call does not complete. -/
theorem FireShot_null_world_fails (E : Engine α R) (p : ASpaceShooterPawn α)
    (loc d : FVector α) (hcan : p.bCanFire = true) (hd : d.SizeSquared > 0) :
    FireShot E p none loc d = none := by
  simp [FireShot, hcan, hd]

/-- C8 on the default pawn firing to the right with no world. -/
theorem FireShot_null_world_fails_witness :
    FireShot qEngine defaultPawn none standPoint fireRight = none :=
  FireShot_null_world_fails qEngine defaultPawn standPoint fireRight rfl
    (by simp [FVector.SizeSquared, fireRight])

/-! ## The cooldown cycle -/

/-- A fire attempt that is ok to fire: one spawn is logged, the pawn goes on cooldown and the
callback is armed `FireRate` from now. -/
theorem Sim.fire_ready (E : Engine α R) (W : UWorld) (loc d : FVector α) (s : Sim α R)
    (hcan : s.Pawn.bCanFire = true) (hd : d.SizeSquared > 0) :
    Sim.fire E W loc d s =
      { Pawn := { s.Pawn with bCanFire := false,
                              TimerHandle_ShotTimerExpired := W.NextTimerHandle }
        Now := s.Now
        Pending := some (s.Now + s.Pawn.FireRate)
        Spawned := s.Spawned ++
          [(loc.add (E.RotateVector (E.Rotation d) s.Pawn.GunOffset), E.Rotation d)] } := by
  obtain ⟨⟨g, fr, ms, sb, fs, ja, cf, th⟩, now, pend, sp⟩ := s
  unfold Sim.fire
  rw [FireShot_eq_of_ready E _ W loc d hcan hd]
  cases fs <;> rfl

/-- A fire attempt on cooldown changes nothing. -/
theorem Sim.fire_cooldown (E : Engine α R) (W : UWorld) (loc d : FVector α) (s : Sim α R)
    (hcan : s.Pawn.bCanFire = false) : Sim.fire E W loc d s = s := by
  unfold Sim.fire
  rw [FireShot_eq_of_cooldown E s.Pawn (some W) loc d hcan]
  rfl

/-- Waiting short of the expiry time only moves the clock. -/
theorem Sim.advance_before (dt T : α) (s : Sim α R) (hP : s.Pending = some T)
    (h : s.Now + dt < T) : Sim.advance dt s = { s with Now := s.Now + dt } := by
  unfold Sim.advance
  simp [hP, not_le.mpr h]

/-- Waiting up to or past the expiry time runs `ShotTimerExpired`. -/
theorem Sim.advance_expire (dt T : α) (s : Sim α R) (hP : s.Pending = some T)
    (h : T ≤ s.Now + dt) :
    Sim.advance dt s =
      { s with Pawn := ShotTimerExpired s.Pawn, Now := s.Now + dt, Pending := none } := by
  unfold Sim.advance
  simp [hP, h]

/-- Attempts made while the callback is pending, at any times before it is due, change
nothing but the clock. -/
theorem Sim.attempts_during_cooldown (E : Engine α R) (W : UWorld) (loc d : FVector α)
    (T : α) (dts : List α) :
    ∀ s : Sim α R, s.Pawn.bCanFire = false → s.Pending = some T →
      (∀ x ∈ dts, 0 ≤ x) → (dts ≠ [] → s.Now + dts.sum < T) →
      dts.foldl (fun s x => Sim.fire E W loc d (Sim.advance x s)) s =
        { s with Now := s.Now + dts.sum } := by
  induction dts with
  | nil => intro s _ _ _ _; simp
  | cons x xs ih =>
    intro s hcan hP hpos hsum
    have hx : 0 ≤ x := hpos x (List.mem_cons_self x xs)
    have hxs : ∀ y ∈ xs, 0 ≤ y := fun y hy => hpos y (List.mem_cons_of_mem x hy)
    have hxs0 : 0 ≤ xs.sum := List.sum_nonneg hxs
    have htot : s.Now + (x + xs.sum) < T := by
      simpa [List.sum_cons] using hsum (List.cons_ne_nil x xs)
    have hstep : Sim.fire E W loc d (Sim.advance x s) = { s with Now := s.Now + x } := by
      rw [Sim.advance_before x T s hP (by linarith)]
      exact Sim.fire_cooldown E W loc d _ hcan
    have hrest := ih { s with Now := s.Now + x } hcan hP hxs
      (fun _ => show s.Now + x + xs.sum < T by linarith)
    rw [List.foldl_cons, hstep, hrest]
    simp [List.sum_cons, add_assoc]

/-- C3: the cooldown cycle, with the timer as a one-shot callback that runs `ShotTimerExpired`
once `FireRate` after it was set. From `bCanFire` true, with the world present and a non-zero
fire direction: the first attempt spawns one projectile and arms the callback; attempts made
after waits `dts` that together stay short of `FireRate` spawn nothing; once a further wait `dt`
reaches `FireRate` the callback has run and `bCanFire` is true again; the next attempt spawns
exactly one more projectile, and the attempt right after it spawns none. -/
theorem cooldown_cycle (E : Engine α R) (W : UWorld) (loc d : FVector α)
    (p : ASpaceShooterPawn α) (t0 : α) (dts : List α) (dt : α)
    (hcan : p.bCanFire = true) (hd : d.SizeSquared > 0)
    (hpos : ∀ x ∈ dts, 0 ≤ x) (hsum : dts ≠ [] → dts.sum < p.FireRate)
    (hdt : p.FireRate ≤ dts.sum + dt) :
    (Sim.fire E W loc d (Sim.start p t0)).Spawned =
        [(loc.add (E.RotateVector (E.Rotation d) p.GunOffset), E.Rotation d)] ∧
    (Sim.fire E W loc d (Sim.start p t0)).Pawn.bCanFire = false ∧
    (Sim.fire E W loc d (Sim.start p t0)).Pending = some (t0 + p.FireRate) ∧
    (dts.foldl (fun s x => Sim.fire E W loc d (Sim.advance x s))
        (Sim.fire E W loc d (Sim.start p t0))).Spawned =
        [(loc.add (E.RotateVector (E.Rotation d) p.GunOffset), E.Rotation d)] ∧
    (dts.foldl (fun s x => Sim.fire E W loc d (Sim.advance x s))
        (Sim.fire E W loc d (Sim.start p t0))).Pawn.bCanFire = false ∧
    (Sim.advance dt (dts.foldl (fun s x => Sim.fire E W loc d (Sim.advance x s))
        (Sim.fire E W loc d (Sim.start p t0)))).Pawn.bCanFire = true ∧
    (Sim.fire E W loc d (Sim.advance dt
        (dts.foldl (fun s x => Sim.fire E W loc d (Sim.advance x s))
          (Sim.fire E W loc d (Sim.start p t0))))).Spawned =
        [(loc.add (E.RotateVector (E.Rotation d) p.GunOffset), E.Rotation d),
         (loc.add (E.RotateVector (E.Rotation d) p.GunOffset), E.Rotation d)] ∧
    (Sim.fire E W loc d (Sim.fire E W loc d (Sim.advance dt
        (dts.foldl (fun s x => Sim.fire E W loc d (Sim.advance x s))
          (Sim.fire E W loc d (Sim.start p t0)))))).Spawned =
        [(loc.add (E.RotateVector (E.Rotation d) p.GunOffset), E.Rotation d),
         (loc.add (E.RotateVector (E.Rotation d) p.GunOffset), E.Rotation d)] := by
  have h1 := Sim.fire_ready E W loc d (Sim.start p t0) hcan hd
  have h2 := Sim.attempts_during_cooldown E W loc d (t0 + p.FireRate) dts
    (Sim.fire E W loc d (Sim.start p t0)) (by rw [h1]) (by rw [h1]; rfl) hpos
    (fun hne => by rw [h1]; show t0 + dts.sum < t0 + p.FireRate; linarith [hsum hne])
  have h3 := Sim.advance_expire dt (t0 + p.FireRate)
    (dts.foldl (fun s x => Sim.fire E W loc d (Sim.advance x s))
      (Sim.fire E W loc d (Sim.start p t0)))
    (by rw [h2, h1]; rfl)
    (by rw [h2, h1]; show t0 + p.FireRate ≤ t0 + dts.sum + dt; linarith)
  have h4 := Sim.fire_ready E W loc d _ (show (Sim.advance dt
    (dts.foldl (fun s x => Sim.fire E W loc d (Sim.advance x s))
      (Sim.fire E W loc d (Sim.start p t0)))).Pawn.bCanFire = true by rw [h3]; rfl) hd
  have h5 := Sim.fire_cooldown E W loc d (Sim.fire E W loc d (Sim.advance dt
    (dts.foldl (fun s x => Sim.fire E W loc d (Sim.advance x s))
      (Sim.fire E W loc d (Sim.start p t0))))) (by rw [h4])
  refine ⟨by rw [h1]; rfl, by rw [h1], by rw [h1]; rfl, by rw [h2, h1]; rfl,
    by rw [h2, h1], by rw [h3]; rfl, ?_, ?_⟩
  · rw [h4, h3, h2, h1]; rfl
  · rw [h5, h4, h3, h2, h1]; rfl

/-- C3 on the default pawn (`FireRate` = 1/10 s), firing to the right at t = 0, 1/20 and
1/10 s: one projectile after the first attempt, still one after the second, two after the
third. -/
theorem cooldown_cycle_witness :
    (Sim.fire qEngine someWorld standPoint fireRight
        (Sim.start defaultPawn 0)).Spawned.length = 1 ∧
    (Sim.fire qEngine someWorld standPoint fireRight (Sim.advance (1 / 20)
        (Sim.fire qEngine someWorld standPoint fireRight
          (Sim.start defaultPawn 0)))).Spawned.length = 1 ∧
    (Sim.fire qEngine someWorld standPoint fireRight (Sim.advance (1 / 20)
        (Sim.fire qEngine someWorld standPoint fireRight (Sim.advance (1 / 20)
          (Sim.fire qEngine someWorld standPoint fireRight
            (Sim.start defaultPawn 0)))))).Spawned.length = 2 ∧
    (Sim.fire qEngine someWorld standPoint fireRight (Sim.advance (1 / 20)
        (Sim.fire qEngine someWorld standPoint fireRight (Sim.advance (1 / 20)
          (Sim.fire qEngine someWorld standPoint fireRight
            (Sim.start defaultPawn 0)))))).Now = 1 / 10 := by
  have h := cooldown_cycle qEngine someWorld standPoint fireRight defaultPawn 0
    [1 / 20] (1 / 20) rfl (by simp [FVector.SizeSquared, fireRight])
    (by intro x hx; rw [List.mem_singleton] at hx; rw [hx]; norm_num)
    (by intro _; show ([1 / 20] : List ℚ).sum < (1 : ℚ) / 10; norm_num)
    (by show (1 : ℚ) / 10 ≤ ([1 / 20] : List ℚ).sum + 1 / 20; norm_num)
  refine ⟨?_, ?_, ?_, ?_⟩
  · rw [h.1]; rfl
  · have h2 := h.2.2.2.1
    rw [List.foldl_cons, List.foldl_nil] at h2
    rw [h2]; rfl
  · have h4 := h.2.2.2.2.2.2.1
    rw [List.foldl_cons, List.foldl_nil] at h4
    rw [h4]; rfl
  · rw [Sim.fire_ready qEngine someWorld standPoint fireRight _ (by
      have h3 := h.2.2.2.2.2.1
      rw [List.foldl_cons, List.foldl_nil] at h3
      exact h3) (by simp [FVector.SizeSquared, fireRight])]
    simp [Sim.advance, Sim.fire, Sim.start, FireShot, defaultPawn, ASpaceShooterPawn.ctor,
      FVector.SizeSquared, fireRight, Sim.serve]
    norm_num

/-! ## Frame conditions -/

/-- The movement step of `Tick` returns the pawn it was given. -/
theorem TickMovement_pawn (E : Engine α R) (p : ASpaceShooterPawn α) (f r dt : α)
    (Hit : FHitResult α) : (TickMovement E p f r dt Hit).1 = p := by
  unfold TickMovement
  simp only []
  split_ifs <;> rfl

/-- Whatever `FireShot` returns, the pawn differs from the one given at most in `bCanFire`,
which can only have been cleared, and in the timer handle. -/
theorem FireShot_frame (E : Engine α R) (p : ASpaceShooterPawn α) (World : Option UWorld)
    (loc d : FVector α) (p1 : ASpaceShooterPawn α) (calls : List (EngineCall α R))
    (h : FireShot E p World loc d = some (p1, calls)) :
    (p1.bCanFire = p.bCanFire ∨ p1.bCanFire = false) ∧ p1.MoveSpeed = p.MoveSpeed ∧
    p1.SpeedBoost = p.SpeedBoost ∧ p1.JumpActivated = p.JumpActivated := by
  unfold FireShot at h
  split_ifs at h with h1 h2
  · cases World with
    | none => simp at h
    | some W =>
      simp only [Option.some.injEq, Prod.mk.injEq] at h
      rw [← h.1]
      exact ⟨Or.inr rfl, rfl, rfl, rfl⟩
  · simp only [Option.some.injEq, Prod.mk.injEq] at h
    rw [← h.1]
    exact ⟨Or.inl rfl, rfl, rfl, rfl⟩
  · simp only [Option.some.injEq, Prod.mk.injEq] at h
    rw [← h.1]
    exact ⟨Or.inl rfl, rfl, rfl, rfl⟩

/-- With the world present `FireShot` always completes. -/
theorem FireShot_completes (E : Engine α R) (p : ASpaceShooterPawn α) (W : UWorld)
    (loc d : FVector α) : ∃ p1 calls, FireShot E p (some W) loc d = some (p1, calls) := by
  unfold FireShot
  split_ifs
  · exact ⟨_, _, rfl⟩
  · exact ⟨_, _, rfl⟩
  · exact ⟨_, _, rfl⟩

/-- C10: `SpeedBoostAbility`, `SpeedBoostAbilityStop`, `JumpAbility`, `JumpAbilityStop` and the
movement step of `Tick` leave `bCanFire` as it is; a `FireShot` on cooldown or with the zero fire
direction leaves the whole pawn as it is and requests nothing; with the world present `FireShot`
completes, and whenever it completes `bCanFire` is unchanged or false while `MoveSpeed`,
`SpeedBoost` and `JumpActivated` are unchanged; `ShotTimerExpired` sets `bCanFire` to true and
leaves `MoveSpeed`, `SpeedBoost` and `JumpActivated` unchanged. -/
theorem bCanFire_written_only_by_fire_and_expiry (E : Engine α R) (p : ASpaceShooterPawn α)
    (World : Option UWorld) (W : UWorld) (f r dt : α) (Hit : FHitResult α)
    (loc d : FVector α) :
    (SpeedBoostAbility p).bCanFire = p.bCanFire ∧
    (SpeedBoostAbilityStop p).bCanFire = p.bCanFire ∧
    (JumpAbility p).bCanFire = p.bCanFire ∧
    (JumpAbilityStop p).bCanFire = p.bCanFire ∧
    (TickMovement E p f r dt Hit).1.bCanFire = p.bCanFire ∧
    (p.bCanFire = false ∨ d = FVector.ZeroVector →
      FireShot E p World loc d = some (p, [])) ∧
    (∃ p1 calls, FireShot E p (some W) loc d = some (p1, calls)) ∧
    (∀ p1 calls, FireShot E p World loc d = some (p1, calls) →
      (p1.bCanFire = p.bCanFire ∨ p1.bCanFire = false) ∧ p1.MoveSpeed = p.MoveSpeed ∧
      p1.SpeedBoost = p.SpeedBoost ∧ p1.JumpActivated = p.JumpActivated) ∧
    (ShotTimerExpired p).bCanFire = true ∧
    (ShotTimerExpired p).MoveSpeed = p.MoveSpeed ∧
    (ShotTimerExpired p).SpeedBoost = p.SpeedBoost ∧
    (ShotTimerExpired p).JumpActivated = p.JumpActivated := by
  refine ⟨rfl, rfl, rfl, rfl, by rw [TickMovement_pawn], ?_, FireShot_completes E p W loc d,
    fun p1 calls h => FireShot_frame E p World loc d p1 calls h, rfl, rfl, rfl, rfl⟩
  rintro (hcan | hd)
  · exact FireShot_eq_of_cooldown E p World loc d hcan
  · subst hd
    simp [FireShot, FVector.SizeSquared, FVector.ZeroVector]

/-- C10 on the default pawn (ready to fire) with the fire stick at rest: the call returns the
pawn unchanged, `bCanFire` still true, and requests nothing. -/
theorem bCanFire_written_only_by_fire_and_expiry_witness :
    FireShot qEngine defaultPawn (some someWorld) standPoint FVector.ZeroVector
      = some (defaultPawn, []) :=
  (bCanFire_written_only_by_fire_and_expiry qEngine defaultPawn (some someWorld) someWorld
    1 0 (1 / 100) ⟨false, false, FVector.ZeroVector, 1⟩ standPoint
    FVector.ZeroVector).2.2.2.2.2.1 (Or.inr rfl)

/-! ## Movement -/

/-- The direction `Tick` uses does not depend on the pawn at all: it is the clamped
(`ForwardValue`, `RightValue`, 0). -/
theorem TickMoveDirection_eq (E : Engine α R) (p : ASpaceShooterPawn α) (f r : α) :
    TickMoveDirection E p f r = (FVector.mk f r 0).GetClampedToMaxSize E.InvSqrt 1 := rfl

/-- Clamping to size 1, case by case. -/
theorem GetClampedToMaxSize_one (InvSqrt : α → α) (v : FVector α) :
    v.GetClampedToMaxSize InvSqrt 1 =
      if v.SizeSquared > 1 then v.scale (InvSqrt v.SizeSquared) else v := by
  have h : ¬ ((1 : α) < FVector.KINDA_SMALL_NUMBER) := by
    unfold FVector.KINDA_SMALL_NUMBER
    norm_num
  unfold FVector.GetClampedToMaxSize
  simp [h, FVector.scale]

/-- Scaling multiplies the squared size by the square of the factor. -/
theorem FVector.SizeSquared_scale (v : FVector α) (s : α) :
    (v.scale s).SizeSquared = s * s * v.SizeSquared := by
  simp only [FVector.scale, FVector.SizeSquared]
  ring

/-- C7, what the code does: the displacement `Tick` computes, and the moves it requests, are
the same with `JumpActivated` set as with it clear; with both movement axes at rest the
displacement is the zero vector and no move is requested, flag set or not. -/
theorem Tick_ignores_JumpActivated (E : Engine α R) (p : ASpaceShooterPawn α) (f r dt : α)
    (Hit : FHitResult α) :
    TickMovementVector E (JumpAbility p) f r dt =
      TickMovementVector E (JumpAbilityStop p) f r dt ∧
    (TickMovement E (JumpAbility p) f r dt Hit).2 =
      (TickMovement E (JumpAbilityStop p) f r dt Hit).2 ∧
    TickMovementVector E (JumpAbility p) 0 0 dt = FVector.ZeroVector ∧
    (TickMovement E (JumpAbility p) 0 0 dt Hit).2 = [] := by
  have h0 : TickMovementVector E (JumpAbility p) 0 0 dt = FVector.ZeroVector := by
    unfold TickMovementVector
    rw [TickMoveDirection_eq, GetClampedToMaxSize_one]
    simp [FVector.SizeSquared, FVector.scale, FVector.ZeroVector]
  have hv : TickMovementVector E (JumpAbility p) f r dt =
      TickMovementVector E (JumpAbilityStop p) f r dt := rfl
  refine ⟨hv, ?_, h0, ?_⟩
  · unfold TickMovement
    simp only [hv]
    split_ifs <;> rfl
  · unfold TickMovement
    simp [h0, FVector.SizeSquared, FVector.ZeroVector]

/-- The squared size of the planar stick vector. -/
theorem FVector.SizeSquared_planar (f r : α) :
    (FVector.mk f r 0).SizeSquared = f * f + r * r := by
  simp [FVector.SizeSquared]

/-- Over the reals, the direction `Tick` uses has length `min 1 (sqrt (f² + r²))`. -/
theorem sqrt_SizeSquared_TickMoveDirection (E : Engine ℝ R)
    (hE : ∀ x, E.InvSqrt x = (Real.sqrt x)⁻¹) (p : ASpaceShooterPawn ℝ) (f r : ℝ) :
    Real.sqrt (TickMoveDirection E p f r).SizeSquared = min 1 (Real.sqrt (f * f + r * r)) := by
  rw [TickMoveDirection_eq, GetClampedToMaxSize_one, FVector.SizeSquared_planar]
  have hq0 : 0 ≤ f * f + r * r := add_nonneg (mul_self_nonneg f) (mul_self_nonneg r)
  split_ifs with h
  · have hs : 0 < Real.sqrt (f * f + r * r) := Real.sqrt_pos.mpr (by linarith)
    have hone : (Real.sqrt (f * f + r * r))⁻¹ * (Real.sqrt (f * f + r * r))⁻¹ *
        (f * f + r * r) = 1 := by
      field_simp
    have hle : 1 ≤ Real.sqrt (f * f + r * r) := by
      rw [← Real.sqrt_one]
      exact Real.sqrt_le_sqrt (le_of_lt h)
    rw [FVector.SizeSquared_scale, FVector.SizeSquared_planar, hE, hone, Real.sqrt_one,
      min_eq_left hle]
  · have hle : Real.sqrt (f * f + r * r) ≤ 1 := by
      rw [← Real.sqrt_one]
      exact Real.sqrt_le_sqrt (not_lt.mp h)
    rw [FVector.SizeSquared_planar, min_eq_right hle]

/-- Over the reals, the displacement has length `|MoveSpeed * DeltaSeconds|` times the length of
the direction. -/
theorem sqrt_SizeSquared_TickMovementVector (E : Engine ℝ R)
    (hE : ∀ x, E.InvSqrt x = (Real.sqrt x)⁻¹) (p : ASpaceShooterPawn ℝ) (f r dt : ℝ)
    (hS : 0 ≤ p.MoveSpeed) (hdt : 0 ≤ dt) :
    Real.sqrt (TickMovementVector E p f r dt).SizeSquared =
      p.MoveSpeed * dt * min 1 (Real.sqrt (f * f + r * r)) := by
  unfold TickMovementVector
  rw [FVector.SizeSquared_scale, FVector.SizeSquared_scale,
    show dt * dt * (p.MoveSpeed * p.MoveSpeed * (TickMoveDirection E p f r).SizeSquared) =
      (p.MoveSpeed * dt) * (p.MoveSpeed * dt) * (TickMoveDirection E p f r).SizeSquared by ring,
    Real.sqrt_mul (mul_self_nonneg _), Real.sqrt_mul_self (mul_nonneg hS hdt),
    sqrt_SizeSquared_TickMoveDirection E hE]

/-- C6: over the reals, with `InvSqrt x = 1 / sqrt x`. The direction `Tick` uses is
(f, r, 0) clamped to length 1: for f² + r² > 1 it is (f, r, 0) times the positive factor
1 / sqrt (f² + r²) and has length exactly 1, for f² + r² ≤ 1 it is (f, r, 0) itself. Hence for
`MoveSpeed` ≥ 0 and `DeltaSeconds` ≥ 0 the displacement has length
`MoveSpeed * DeltaSeconds * min 1 (sqrt (f² + r²))`; for the input (1, 1) that is
`MoveSpeed * DeltaSeconds`, which differs from `MoveSpeed * DeltaSeconds * sqrt 2` when
positive. Holds for every pawn state, `JumpActivated` included. -/
theorem Tick_direction_clamped (E : Engine ℝ R) (hE : ∀ x, E.InvSqrt x = (Real.sqrt x)⁻¹)
    (p : ASpaceShooterPawn ℝ) (f r dt : ℝ) :
    (f * f + r * r > 1 →
      TickMoveDirection E p f r = (FVector.mk f r 0).scale (Real.sqrt (f * f + r * r))⁻¹ ∧
      0 < (Real.sqrt (f * f + r * r))⁻¹ ∧
      Real.sqrt (TickMoveDirection E p f r).SizeSquared = 1) ∧
    (f * f + r * r ≤ 1 → TickMoveDirection E p f r = ⟨f, r, 0⟩) ∧
    (0 ≤ p.MoveSpeed → 0 ≤ dt →
      Real.sqrt (TickMovementVector E p f r dt).SizeSquared =
        p.MoveSpeed * dt * min 1 (Real.sqrt (f * f + r * r))) ∧
    (0 ≤ p.MoveSpeed → 0 ≤ dt →
      Real.sqrt (TickMovementVector E p 1 1 dt).SizeSquared = p.MoveSpeed * dt) ∧
    (0 < p.MoveSpeed → 0 < dt →
      Real.sqrt (TickMovementVector E p 1 1 dt).SizeSquared ≠
        p.MoveSpeed * dt * Real.sqrt 2) := by
  have hdir : TickMoveDirection E p f r =
      if f * f + r * r > 1 then (FVector.mk f r 0).scale (Real.sqrt (f * f + r * r))⁻¹
      else ⟨f, r, 0⟩ := by
    rw [TickMoveDirection_eq, GetClampedToMaxSize_one, FVector.SizeSquared_planar, hE]
  have hlen := sqrt_SizeSquared_TickMoveDirection E hE p f r
  have h2 : (1 : ℝ) < Real.sqrt 2 := by
    rw [Real.lt_sqrt (by norm_num)]
    norm_num
  have h11 : ∀ (_ : 0 ≤ p.MoveSpeed) (_ : 0 ≤ dt),
      Real.sqrt (TickMovementVector E p 1 1 dt).SizeSquared = p.MoveSpeed * dt := by
    intro hS hdt
    rw [sqrt_SizeSquared_TickMovementVector E hE p 1 1 dt hS hdt,
      show (1 : ℝ) * 1 + 1 * 1 = 2 by norm_num, min_eq_left (le_of_lt h2), mul_one]
  refine ⟨fun h => ?_, fun h => ?_, sqrt_SizeSquared_TickMovementVector E hE p f r dt, h11,
    fun hS hdt => ?_⟩
  · have hq1 : (1 : ℝ) < Real.sqrt (f * f + r * r) := by
      rw [Real.lt_sqrt (by norm_num)]
      simpa using h
    refine ⟨by rw [hdir, if_pos h], inv_pos.mpr (by linarith), ?_⟩
    rw [hlen, min_eq_left (le_of_lt hq1)]
  · rw [hdir, if_neg (not_lt.mpr h)]
  · rw [h11 (le_of_lt hS) (le_of_lt hdt)]
    intro heq
    have hpos : 0 < p.MoveSpeed * dt := mul_pos hS hdt
    nlinarith

/-- C6 at the stick input (1, 1) on the default pawn (`MoveSpeed` 1000) over 1/100 s: the
direction has length 1 and the displacement has length 1000 * (1/100). -/
theorem Tick_direction_clamped_witness :
    (1 : ℝ) * 1 + 1 * 1 > 1 ∧
    Real.sqrt (TickMoveDirection (yawEngine fun x => (Real.sqrt x)⁻¹)
      (ASpaceShooterPawn.ctor none) 1 1).SizeSquared = 1 ∧
    Real.sqrt (TickMovementVector (yawEngine fun x => (Real.sqrt x)⁻¹)
      (ASpaceShooterPawn.ctor none) 1 1 (1 / 100)).SizeSquared = 1000 * (1 / 100) :=
  ⟨by norm_num,
   ((Tick_direction_clamped (yawEngine fun x => (Real.sqrt x)⁻¹) (fun _ => rfl)
      (ASpaceShooterPawn.ctor none) 1 1 (1 / 100)).1 (by norm_num)).2.2,
   (Tick_direction_clamped (yawEngine fun x => (Real.sqrt x)⁻¹) (fun _ => rfl)
      (ASpaceShooterPawn.ctor none) 1 1 (1 / 100)).2.2.2.1
      (by show (0 : ℝ) ≤ 1000; norm_num) (by norm_num)⟩

/-! ## Sliding along a blocking surface -/

/-- The displacement `Tick` computes is horizontal. -/
theorem TickMovementVector_Z (E : Engine α R) (p : ASpaceShooterPawn α) (f r dt : α) :
    (TickMovementVector E p f r dt).Z = 0 := by
  unfold TickMovementVector
  rw [TickMoveDirection_eq, GetClampedToMaxSize_one]
  split_ifs <;> simp [FVector.scale]

/-- The component along `n` left after projecting onto the plane of `n` and scaling. -/
theorem FVector.dot_scale_VectorPlaneProject (M n : FVector α) (c : α) :
    ((FVector.VectorPlaneProject M n).scale c).dot n = c * M.dot n * (1 - n.dot n) := by
  simp only [FVector.VectorPlaneProject, FVector.ProjectOnToNormal, FVector.scale,
    FVector.sub, FVector.dot]
  ring

/-- Over the reals `GetSafeNormal2D` returns a unit vector or the zero vector. -/
theorem GetSafeNormal2D_unit_or_zero (InvSqrt : ℝ → ℝ)
    (hE : ∀ x, InvSqrt x = (Real.sqrt x)⁻¹) (v : FVector ℝ) :
    (v.GetSafeNormal2D InvSqrt).dot (v.GetSafeNormal2D InvSqrt) = 1 ∨
    v.GetSafeNormal2D InvSqrt = FVector.ZeroVector := by
  unfold FVector.GetSafeNormal2D
  simp only []
  split_ifs with h1 hz h2
  · left
    simp only [FVector.dot, hz]
    linarith
  · left
    simp only [FVector.dot]
    linarith
  · right; rfl
  · left
    have hq : 0 < v.X * v.X + v.Y * v.Y :=
      lt_of_lt_of_le (by unfold FVector.SMALL_NUMBER; norm_num) (not_lt.mp h2)
    have hs : 0 < Real.sqrt (v.X * v.X + v.Y * v.Y) := Real.sqrt_pos.mpr hq
    simp only [FVector.dot, hE]
    field_simp


/-- C9, as stated, fails. The default pawn moving along +X over 1/100 s (displacement
(10, 0, 0)) is blocked half way by a ramp with unit normal (-3/5, 0, 4/5). The second move
requested is the zero vector, while the displacement projected onto the plane of that normal and
scaled by 1 - 1/2 is (16/5, 0, 12/5). -/
theorem Tick_deflection_not_along_ramp :
    movesOf (TickMovement (yawEngine fun x => (Real.sqrt x)⁻¹)
        (ASpaceShooterPawn.ctor none) 1 0 (1 / 100) rampHit).2 =
      [⟨10, 0, 0⟩, ⟨0, 0, 0⟩] ∧
    (FVector.VectorPlaneProject (⟨10, 0, 0⟩ : FVector ℝ)
        (rampHit : FHitResult ℝ).Normal).scale (1 - (rampHit : FHitResult ℝ).Time) =
      ⟨16 / 5, 0, 12 / 5⟩ ∧
    (⟨0, 0, 0⟩ : FVector ℝ) ≠ ⟨16 / 5, 0, 12 / 5⟩ := by
  have hs : Real.sqrt (9 / 25) = 3 / 5 := by
    rw [show (9 / 25 : ℝ) = (3 / 5) ^ 2 by norm_num, Real.sqrt_sq (by norm_num)]
  have hM : TickMovementVector (yawEngine fun x => (Real.sqrt x)⁻¹)
      (ASpaceShooterPawn.ctor none : ASpaceShooterPawn ℝ) 1 0 (1 / 100) = ⟨10, 0, 0⟩ := by
    unfold TickMovementVector
    rw [TickMoveDirection_eq, GetClampedToMaxSize_one]
    simp [FVector.SizeSquared, FVector.scale, ASpaceShooterPawn.ctor]
    norm_num
  have hN : (rampHit : FHitResult ℝ).Normal.GetSafeNormal2D
      (yawEngine fun x => (Real.sqrt x)⁻¹ : Engine ℝ (FVector ℝ)).InvSqrt = ⟨-1, 0, 0⟩ := by
    unfold FVector.GetSafeNormal2D
    have hq : (-3 / 5 : ℝ) * (-3 / 5) + 0 * 0 = 9 / 25 := by norm_num
    simp only [rampHit, yawEngine, hq, hs]
    rw [if_neg (by norm_num), if_neg (by unfold FVector.SMALL_NUMBER; norm_num)]
    norm_num
  refine ⟨?_, ?_, ?_⟩
  · unfold TickMovement
    rw [hM]
    have hpos : (⟨10, 0, 0⟩ : FVector ℝ).SizeSquared > 0 := by
      simp [FVector.SizeSquared]
    have hhit : (rampHit : FHitResult ℝ).IsValidBlockingHit = true := rfl
    simp only [hpos, hhit, if_true, movesOf, TickDeflection, hN]
    simp [FVector.VectorPlaneProject, FVector.ProjectOnToNormal, FVector.scale, FVector.sub,
      FVector.dot]
  · simp [FVector.VectorPlaneProject, FVector.ProjectOnToNormal, FVector.scale, FVector.sub,
      FVector.dot, rampHit]
    norm_num
  · intro h
    have hx := congrArg FVector.X h
    norm_num at hx


/-- C9, amended: over the reals, with `InvSqrt x = 1 / sqrt x`. When `Tick` computes a non-zero
displacement M and the first sweep reports a valid blocking hit with normal N and time t, the
moves requested are M and then the projection of M onto the plane whose normal is
`GetSafeNormal2D(N)` (the horizontal unit normal: N with Z dropped, renormalised, or zero when
the X/Y part of N is below the tolerance), scaled by 1 - t. That vector has no component along
`GetSafeNormal2D(N)`; it is the projection onto the plane of N itself, scaled by 1 - t, when N is
a horizontal unit vector; it has no component along N when the X/Y part of N is zero or has
squared length at least `SMALL_NUMBER`; and it is the zero vector when t = 1. -/
theorem Tick_deflection_horizontal_normal (E : Engine ℝ R)
    (hE : ∀ x, E.InvSqrt x = (Real.sqrt x)⁻¹) (p : ASpaceShooterPawn ℝ) (f r dt : ℝ)
    (Hit : FHitResult ℝ) (hM : (TickMovementVector E p f r dt).SizeSquared > 0)
    (hHit : Hit.IsValidBlockingHit = true) :
    movesOf (TickMovement E p f r dt Hit).2 =
      [TickMovementVector E p f r dt,
       (FVector.VectorPlaneProject (TickMovementVector E p f r dt)
          (Hit.Normal.GetSafeNormal2D E.InvSqrt)).scale (1 - Hit.Time)] ∧
    ((FVector.VectorPlaneProject (TickMovementVector E p f r dt)
        (Hit.Normal.GetSafeNormal2D E.InvSqrt)).scale (1 - Hit.Time)).dot
      (Hit.Normal.GetSafeNormal2D E.InvSqrt) = 0 ∧
    (Hit.Normal.Z = 0 → Hit.Normal.SizeSquared = 1 →
      (FVector.VectorPlaneProject (TickMovementVector E p f r dt)
          (Hit.Normal.GetSafeNormal2D E.InvSqrt)).scale (1 - Hit.Time) =
        (FVector.VectorPlaneProject (TickMovementVector E p f r dt)
          Hit.Normal).scale (1 - Hit.Time)) ∧
    ((Hit.Normal.X = 0 ∧ Hit.Normal.Y = 0) ∨
        FVector.SMALL_NUMBER ≤ Hit.Normal.X * Hit.Normal.X + Hit.Normal.Y * Hit.Normal.Y →
      ((FVector.VectorPlaneProject (TickMovementVector E p f r dt)
          (Hit.Normal.GetSafeNormal2D E.InvSqrt)).scale (1 - Hit.Time)).dot Hit.Normal = 0) ∧
    (Hit.Time = 1 →
      (FVector.VectorPlaneProject (TickMovementVector E p f r dt)
          (Hit.Normal.GetSafeNormal2D E.InvSqrt)).scale (1 - Hit.Time) =
        FVector.ZeroVector) := by
  have hmoves : movesOf (TickMovement E p f r dt Hit).2 =
      [TickMovementVector E p f r dt,
       (FVector.VectorPlaneProject (TickMovementVector E p f r dt)
          (Hit.Normal.GetSafeNormal2D E.InvSqrt)).scale (1 - Hit.Time)] := by
    unfold TickMovement
    simp only [hM, hHit, if_true]
    rfl
  have hZ := TickMovementVector_Z E p f r dt
  generalize TickMovementVector E p f r dt = M at hM hZ hmoves
  refine ⟨hmoves, ?_, ?_, ?_, ?_⟩
  · rw [FVector.dot_scale_VectorPlaneProject]
    rcases GetSafeNormal2D_unit_or_zero E.InvSqrt hE Hit.Normal with h | h
    · rw [h]; ring
    · rw [h]; simp [FVector.dot, FVector.ZeroVector]
  · intro hz h1
    have hq : Hit.Normal.X * Hit.Normal.X + Hit.Normal.Y * Hit.Normal.Y = 1 := by
      simp only [FVector.SizeSquared, hz] at h1
      linarith
    have hN : Hit.Normal.GetSafeNormal2D E.InvSqrt = Hit.Normal := by
      unfold FVector.GetSafeNormal2D
      simp [hq, hz]
    rw [hN]
  · intro hcase
    unfold FVector.GetSafeNormal2D
    simp only []
    split_ifs with h1 hz h2
    · rw [FVector.dot_scale_VectorPlaneProject]
      have hNN : Hit.Normal.dot Hit.Normal = 1 := by
        simp only [FVector.dot, hz]
        linarith
      rw [hNN]; ring
    · simp only [FVector.VectorPlaneProject, FVector.ProjectOnToNormal, FVector.scale,
        FVector.sub, FVector.dot, hZ]
      linear_combination
        (-(1 - Hit.Time) * (M.X * Hit.Normal.X + M.Y * Hit.Normal.Y)) * h1
    · rcases hcase with ⟨hx, hy⟩ | hge
      · simp only [FVector.VectorPlaneProject, FVector.ProjectOnToNormal, FVector.scale,
          FVector.sub, FVector.dot, FVector.ZeroVector, hZ, hx, hy]
        ring
      · exact absurd h2 (not_lt.mpr hge)
    · have hq : 0 < Hit.Normal.X * Hit.Normal.X + Hit.Normal.Y * Hit.Normal.Y :=
        lt_of_lt_of_le (by unfold FVector.SMALL_NUMBER; norm_num) (not_lt.mp h2)
      have hs : 0 < Real.sqrt (Hit.Normal.X * Hit.Normal.X + Hit.Normal.Y * Hit.Normal.Y) :=
        Real.sqrt_pos.mpr hq
      have hone : (Real.sqrt (Hit.Normal.X * Hit.Normal.X + Hit.Normal.Y * Hit.Normal.Y))⁻¹ *
          (Real.sqrt (Hit.Normal.X * Hit.Normal.X + Hit.Normal.Y * Hit.Normal.Y))⁻¹ *
          (Hit.Normal.X * Hit.Normal.X + Hit.Normal.Y * Hit.Normal.Y) = 1 := by
        field_simp
      simp only [FVector.VectorPlaneProject, FVector.ProjectOnToNormal, FVector.scale,
        FVector.sub, FVector.dot, hZ, hE]
      linear_combination
        (-(1 - Hit.Time) * (M.X * Hit.Normal.X + M.Y * Hit.Normal.Y)) * hone
  · intro ht
    simp [ht, FVector.scale, FVector.ZeroVector]


/-- C9, amended, on the ramp hit: the default pawn moving along +X is blocked half way by the
ramp with normal (-3/5, 0, 4/5); the second move has no component along the horizontal unit
normal, nor along the ramp normal itself. -/
theorem Tick_deflection_horizontal_normal_witness :
    ((FVector.VectorPlaneProject
        (TickMovementVector (yawEngine fun x => (Real.sqrt x)⁻¹)
          (ASpaceShooterPawn.ctor none) 1 0 (1 / 100))
        ((rampHit : FHitResult ℝ).Normal.GetSafeNormal2D fun x => (Real.sqrt x)⁻¹)).scale
      (1 - (rampHit : FHitResult ℝ).Time)).dot
      ((rampHit : FHitResult ℝ).Normal.GetSafeNormal2D fun x => (Real.sqrt x)⁻¹) = 0 ∧
    ((FVector.VectorPlaneProject
        (TickMovementVector (yawEngine fun x => (Real.sqrt x)⁻¹)
          (ASpaceShooterPawn.ctor none) 1 0 (1 / 100))
        ((rampHit : FHitResult ℝ).Normal.GetSafeNormal2D fun x => (Real.sqrt x)⁻¹)).scale
      (1 - (rampHit : FHitResult ℝ).Time)).dot (rampHit : FHitResult ℝ).Normal = 0 := by
  have hM : (TickMovementVector (yawEngine fun x => (Real.sqrt x)⁻¹)
      (ASpaceShooterPawn.ctor none : ASpaceShooterPawn ℝ) 1 0 (1 / 100)).SizeSquared > 0 := by
    unfold TickMovementVector
    rw [TickMoveDirection_eq, GetClampedToMaxSize_one]
    simp [FVector.SizeSquared, FVector.scale, ASpaceShooterPawn.ctor]
  have h := Tick_deflection_horizontal_normal (yawEngine fun x => (Real.sqrt x)⁻¹)
    (fun _ => rfl) (ASpaceShooterPawn.ctor none) 1 0 (1 / 100) rampHit hM rfl
  exact ⟨h.2.1, h.2.2.2.1 (Or.inr (by
    unfold FVector.SMALL_NUMBER
    simp only [rampHit]
    norm_num))⟩

end SpaceShooter
